import Mathlib

/-!
# DynamicX: logging categories, argument store and feedback record

A shallow embedding of `src/util.h` and `src/protocol/feedback.h`.

* `uint32_t` values are natural numbers below `UINT32_RANGE`; the bitwise
  operators of the source are `&&&`, `|||` and `<<<` on `Nat`.
* The process-wide `std::atomic<uint32_t> logCategories` is a field of
  `LogState`, which is passed explicitly.
* Functions that `util.h` only declares (their bodies are in `util.cpp`) are
  modelled from the specification; each such definition says so.
-/

namespace DynamicX

/-! ## Logging categories (`util.h`, lines 81-151) -/

/-- Number of values of a `uint32_t`. -/
def UINT32_RANGE : Nat := 4294967296

/-- Result of `~x` on a `uint32_t` operand `x`. -/
def complement32 (x : Nat) : Nat := (UINT32_RANGE - 1) - x % UINT32_RANGE

/-- Number of bits set among the 32 bits of a `uint32_t`. -/
def popcount32 (x : Nat) : Nat := ((List.range 32).filter (fun i => x.testBit i)).length

namespace DYNLog

/-- The enumerators of `enum LogFlags : uint32_t`, in declaration order. -/
inductive LogFlags where
  | NONE | NET | TOR | MEMPOOL | HTTP | BENCH | ZMQ | DB | RPC | ESTIMATEFEE
  | ADDRMAN | SELECTCOINS | REINDEX | CMPCTBLOCK | RAND | PRUNE | PROXY
  | MEMPOOLREJ | LIBEVENT | COINDB | QT | LEVELDB | ALERT
  | PRIVATESEND | INSTANTSEND | DYNODE | SPORK | KEEPASS | DNPAYMENTS
  | GOBJECT | BLOCKGEN | VERIFY
  | ALL
  deriving DecidableEq

/-- The `uint32_t` value the enum gives each enumerator. -/
def LogFlags.toUInt32 : LogFlags → Nat
  | .NONE        => 0
  | .NET         => 1 <<< 0
  | .TOR         => 1 <<< 1
  | .MEMPOOL     => 1 <<< 2
  | .HTTP        => 1 <<< 3
  | .BENCH       => 1 <<< 4
  | .ZMQ         => 1 <<< 5
  | .DB          => 1 <<< 6
  | .RPC         => 1 <<< 7
  | .ESTIMATEFEE => 1 <<< 8
  | .ADDRMAN     => 1 <<< 9
  | .SELECTCOINS => 1 <<< 10
  | .REINDEX     => 1 <<< 11
  | .CMPCTBLOCK  => 1 <<< 12
  | .RAND        => 1 <<< 13
  | .PRUNE       => 1 <<< 14
  | .PROXY       => 1 <<< 15
  | .MEMPOOLREJ  => 1 <<< 16
  | .LIBEVENT    => 1 <<< 17
  | .COINDB      => 1 <<< 18
  | .QT          => 1 <<< 19
  | .LEVELDB     => 1 <<< 20
  | .ALERT       => 1 <<< 21
  | .PRIVATESEND => 1 <<< 22
  | .INSTANTSEND => 1 <<< 23
  | .DYNODE      => 1 <<< 24
  | .SPORK       => 1 <<< 25
  | .KEEPASS     => 1 <<< 26
  | .DNPAYMENTS  => 1 <<< 27
  | .GOBJECT     => 1 <<< 28
  | .BLOCKGEN    => 1 <<< 29
  | .VERIFY      => 1 <<< 30
  | .ALL         => complement32 0

/-- Every enumerator of `LogFlags`, in declaration order. -/
def LogFlags.all : List LogFlags :=
  [.NONE, .NET, .TOR, .MEMPOOL, .HTTP, .BENCH, .ZMQ, .DB, .RPC, .ESTIMATEFEE,
   .ADDRMAN, .SELECTCOINS, .REINDEX, .CMPCTBLOCK, .RAND, .PRUNE, .PROXY,
   .MEMPOOLREJ, .LIBEVENT, .COINDB, .QT, .LEVELDB, .ALERT,
   .PRIVATESEND, .INSTANTSEND, .DYNODE, .SPORK, .KEEPASS, .DNPAYMENTS,
   .GOBJECT, .BLOCKGEN, .VERIFY, .ALL]

/-- An enumerator that is one of the two sentinels `NONE` and `ALL`. -/
def LogFlags.isSentinel : LogFlags → Bool
  | .NONE => true
  | .ALL  => true
  | _     => false

end DYNLog

open DYNLog

/-- One call that the logging code makes to a function defined outside
`util.h`: `tfm::format(fmt, args...)` or `LogPrintStr(str)`. -/
inductive LogCall where
  | format (fmt : String) (args : List String)
  | LogPrintStr (str : String)
  deriving DecidableEq

/-- The process-wide logging state: the atomic mask `logCategories` and the
calls made so far to the formatter and to `LogPrintStr`, oldest first. -/
structure LogState where
  logCategories : Nat
  calls : List LogCall
  deriving DecidableEq

/-- `LogAcceptCategory(category)`: one relaxed load of `logCategories`, ANDed
with `category`, compared with zero. The state is returned as it is read. -/
def LogAcceptCategory (category : Nat) (st : LogState) : Bool × LogState :=
  ((st.logCategories &&& category) != 0, st)

/-- Modelled from the spec: the body of the category-merge operation is not in
`util.h`. §4.2 "MergeIntoMask(flags)": atomically OR the flags into the
process-wide mask. -/
def MergeIntoMask (flags : Nat) (st : LogState) : LogState :=
  { st with logCategories := st.logCategories ||| flags }

/-- Modelled from the spec: the body of the category-clear operation is not in
`util.h`. §4.2 "ClearFromMask(flags)": atomically AND-NOT the flags out of the
process-wide mask. -/
def ClearFromMask (flags : Nat) (st : LogState) : LogState :=
  { st with logCategories := st.logCategories &&& complement32 flags }

/-- The struct `CLogCategoryActive`: a category name and whether it is active. -/
structure CLogCategoryActive where
  category : String
  active : Bool
  deriving DecidableEq

/-- Modelled from the spec: the static category table is in `util.cpp`. §4.2
"Known categories": a static table mapping each category name to a unique bit;
includes two sentinel names mapping to the zero mask and the all-bits mask.
The names themselves are not given anywhere; `names` stands for them. -/
def LogCategories (names : LogFlags → String) : List (LogFlags × String) :=
  LogFlags.all.map (fun f => (f, names f))

/-- Modelled from the spec: `ListActiveLogCategories` is only declared in
`util.h`. §3 "Active-category view": a list pairing each known category name
with whether its bit is currently set in the mask. A category owns exactly one
bit; the zero mask and the all-bits mask are reserved values that own none and
have no entry in the view. Whether the bit is set is asked of
`LogAcceptCategory` (§4.2). -/
def ListActiveLogCategories (names : LogFlags → String) (st : LogState) :
    List CLogCategoryActive :=
  ((LogCategories names).filter (fun e => !e.1.isSentinel)).map
    (fun e => ⟨e.2, (LogAcceptCategory e.1.toUInt32 st).1⟩)

/-- `FormatStringFromLogArgs(fmt, args...)`: the format string itself. -/
def FormatStringFromLogArgs (fmt : String) (_args : List String) : String := fmt

/-- `LogPrintStr(str)` is only declared in `util.h`; a call to it is recorded in
the state. -/
def LogPrintStr (str : String) (st : LogState) : LogState :=
  { st with calls := st.calls ++ [LogCall.LogPrintStr str] }

/-- The macro `LogPrintf(fmt, args...)`. The parameter `tfmFormat` stands for
`tfm::format` of `tinyformat.h`: it gives the formatted text, or fails with the
text of the `format_error` it throws. The call to it is recorded, the message or
the error text built in the `catch` block goes to `LogPrintStr`. -/
def LogPrintf (tfmFormat : String → List String → Except String String)
    (fmt : String) (args : List String) (st : LogState) : LogState :=
  let st1 : LogState := { st with calls := st.calls ++ [LogCall.format fmt args] }
  let log_msg : String :=
    match tfmFormat fmt args with
    | .ok msg => msg
    | .error what =>
        "Error \"" ++ what ++ "\" while formatting log message: " ++
          FormatStringFromLogArgs fmt args
  LogPrintStr log_msg st1

/-- The macro `LogPrint(category, fmt, args...)`. -/
def LogPrint (tfmFormat : String → List String → Except String String)
    (category : Nat) (fmt : String) (args : List String) (st : LogState) : LogState :=
  let r := LogAcceptCategory category st
  if r.1 then LogPrintf tfmFormat fmt args r.2 else r.2

/-- Number of calls to `LogPrintStr` among recorded calls. -/
def countLogPrintStr (calls : List LogCall) : Nat :=
  (calls.filter (fun c => match c with
    | .LogPrintStr _ => true
    | .format _ _ => false)).length

/-! ## Argument marker (`util.h`, lines 215-222) -/

/-- `IsSwitchChar(c)`; `WIN32` says whether the macro `WIN32` is defined. -/
def IsSwitchChar (WIN32 : Bool) (c : Char) : Bool :=
  if WIN32 then c == '-' || c == '/' else c == '-'

/-! ## Feedback record (`protocol/feedback.h`) -/

/-- Modelled from the spec: the class `uint256` is declared in `uint256.h`,
which is not at hand; §6 calls the field "a hash reference" whose null state is
zero. It is held as its 32 bytes. -/
structure uint256 where
  data : List Nat
  deriving DecidableEq

/-- `uint256::SetNull()`: all 32 bytes zero. -/
def uint256.SetNull (_h : uint256) : uint256 := ⟨List.replicate 32 0⟩

/-- `uint256::IsNull()`: every byte is zero. -/
def uint256.IsNull (h : uint256) : Bool := h.data.all (fun b => b == 0)

/-- The class `CFeedback`. `unsigned char` and `uint64_t` members are natural
numbers, the byte vector is a list. -/
structure CFeedback where
  vchFeedback : List Nat
  nRating : Nat
  nFeedbackUserTo : Nat
  nFeedbackUserFrom : Nat
  nHeight : Nat
  txHash : uint256
  deriving DecidableEq

namespace CFeedback

/-- `CFeedback::SetNull()`. -/
def SetNull (f : CFeedback) : CFeedback :=
  { f with
    txHash := f.txHash.SetNull
    nHeight := 0
    nRating := 0
    nFeedbackUserFrom := 0
    nFeedbackUserTo := 0
    vchFeedback := [] }

/-- `CFeedback::IsNull()`. -/
def IsNull (f : CFeedback) : Bool :=
  f.txHash.IsNull && f.nHeight == 0 && f.nRating == 0 && f.nFeedbackUserFrom == 0 &&
    f.nFeedbackUserTo == 0 && f.vchFeedback.isEmpty

/-- The constructor `CFeedback()`. The members hold `uninit`, whatever is in
the object before the body runs; the body is `SetNull()`. -/
def new (uninit : CFeedback) : CFeedback := uninit.SetNull

/-- The constructor `CFeedback(nAcceptFeedbackUserFrom, nAcceptFeedbackUserTo)`. -/
def newFromTo (uninit : CFeedback) (nAcceptFeedbackUserFrom nAcceptFeedbackUserTo : Nat) :
    CFeedback :=
  { uninit.SetNull with
    nFeedbackUserFrom := nAcceptFeedbackUserFrom
    nFeedbackUserTo := nAcceptFeedbackUserTo }

end CFeedback

/-! ## Argument store (`util.h`, lines 224-334)

`util.h` declares the class `ArgsManager`, its two maps and its member
functions; the bodies are in `util.cpp`. The member functions below are
modelled from §3 and §4.1 of the specification. An argument is stored under its
name with the leading hyphen, as in the header (`strArg`, e.g. `"-foo"`). -/

/-- Modelled from the spec: the error kinds of §7 that the argument store
raises. -/
inductive ConfigError where
  | ArgumentParseError (token : String)
  | ConfigFileNotFound
  | ConfigFileIOError
  | ConfigFileMalformedLine (line : Nat)
  deriving DecidableEq

/-- The class `ArgsManager`. `mapArgs` and `mapMultiArgs` are its two maps, held
as association lists whose first binding of a key is the current one. The
lock `cs_args` has no counterpart: every operation runs alone. Modelled from the
spec: `negated` (§3, the names marked by a negation token) and `commandLine`
(§4.1, the names with at least one command-line occurrence). -/
structure ArgsManager where
  mapArgs : List (String × String)
  mapMultiArgs : List (String × List String)
  negated : List String
  commandLine : List String
  deriving DecidableEq

/-- Modelled from the spec: what a recognized command-line token records (§4.1):
the name, the value and whether the token is a negation. -/
structure CommandLineEntry where
  key : String
  value : String
  negation : Bool
  deriving DecidableEq

/-- Splits at the first `=`: the text before it and, when there is one, the text
after it. -/
def splitAtEquals : List Char → List Char × Option (List Char)
  | [] => ([], none)
  | c :: cs =>
      if c = '=' then ([], some cs)
      else ((c :: (splitAtEquals cs).1), (splitAtEquals cs).2)

/-- Modelled from the spec: §4.1 "ParseCommandLine", one token. `-name=value`
records the value, bare `-name` the true-sentinel `"1"`, `-noname` the
false-sentinel `"0"` with the negation mark; a token that does not begin with
the marker is not for the store; `-=value` is an `ArgumentParseError`. A token
with `=` is read as `-name=value` whatever its name. The name is stored with a
leading hyphen whichever marker the token has. -/
def parseToken (WIN32 : Bool) (token : String) : Except ConfigError (Option CommandLineEntry) :=
  match token.data with
  | [] => .ok none
  | c :: rest =>
      if IsSwitchChar WIN32 c then
        match splitAtEquals rest with
        | (name, some value) =>
            if name.isEmpty then .error (.ArgumentParseError token)
            else .ok (some ⟨String.mk ('-' :: name), String.mk value, false⟩)
        | (name, none) =>
            match name with
            | [] => .ok none
            | 'n' :: 'o' :: b :: base => .ok (some ⟨String.mk ('-' :: b :: base), "0", true⟩)
            | _ => .ok (some ⟨String.mk ('-' :: name), "1", false⟩)
      else .ok none

/-- Modelled from the spec: every token parsed, in order; the first malformed
token fails the whole call. -/
def parseTokens (WIN32 : Bool) : List String → Except ConfigError (List CommandLineEntry)
  | [] => .ok []
  | t :: ts =>
      match parseToken WIN32 t with
      | .error e => .error e
      | .ok r =>
          match parseTokens WIN32 ts with
          | .error e => .error e
          | .ok es =>
              match r with
              | some e => .ok (e :: es)
              | none => .ok es

/-- Modelled from the spec: the way the spec's integer `GetArg` reads digits,
most significant first. -/
def parseDigits : List Char → Nat → Option Nat
  | [], acc => some acc
  | c :: cs, acc =>
      if c.isDigit then parseDigits cs (acc * 10 + (c.toNat - 48)) else none

/-- Modelled from the spec: §4.1 "parses the scalar value as an integer". The
spec does not give the syntax; taken here: an optional `-`, then one or more
decimal digits and nothing else, the value being an `int64_t`. -/
def ParseInt64 (text : String) : Option Int :=
  match text.data with
  | [] => none
  | '-' :: ds =>
      if ds.isEmpty then none
      else
        match parseDigits ds 0 with
        | some n => if n ≤ 9223372036854775808 then some (-(n : Int)) else none
        | none => none
  | ds =>
      match parseDigits ds 0 with
      | some n => if n < 9223372036854775808 then some (n : Int) else none
      | none => none

namespace ArgsManager

/-- The store as constructed: both maps empty. -/
def empty : ArgsManager := ⟨[], [], [], []⟩

/-- Modelled from the spec: §4.1 "GetArgs(name)": the full occurrence list. -/
def GetArgs (s : ArgsManager) (strArg : String) : List String :=
  (s.mapMultiArgs.lookup strArg).getD []

/-- Modelled from the spec: §4.1 "IsArgSet(name)": true iff the name has at
least one occurrence. -/
def IsArgSet (s : ArgsManager) (strArg : String) : Bool :=
  !(s.GetArgs strArg).isEmpty

/-- The current scalar value of a name that is set. -/
def scalar (s : ArgsManager) (strArg : String) : Option String :=
  if s.IsArgSet strArg then s.mapArgs.lookup strArg else none

/-- Modelled from the spec: §4.1 "GetArg(name, intDefault) → integer": parses
the scalar value as an integer; on parse failure returns 0, not the default. -/
def GetArg_int64 (s : ArgsManager) (strArg : String) (nDefault : Int) : Int :=
  match s.scalar strArg with
  | none => nDefault
  | some text =>
      match ParseInt64 text with
      | some n => n
      | none => 0

/-- Modelled from the spec: §4.1, a recognized token "appends to the occurrence
list and updates the scalar value to this occurrence"; `-noname` additionally
marks the name negated. -/
def applyCommandLine (s : ArgsManager) (e : CommandLineEntry) : ArgsManager :=
  { mapArgs := (e.key, e.value) :: s.mapArgs
    mapMultiArgs := (e.key, s.GetArgs e.key ++ [e.value]) :: s.mapMultiArgs
    negated := if e.negation then e.key :: s.negated else s.negated
    commandLine := e.key :: s.commandLine }

/-- Modelled from the spec: §4.1 "ParseCommandLine(tokens)": all tokens are
parsed, then applied in order; a malformed token fails the call and no state
comes out of it. -/
def ParseParameters (WIN32 : Bool) (tokens : List String) (s : ArgsManager) :
    Except ConfigError ArgsManager :=
  match parseTokens WIN32 tokens with
  | .error e => .error e
  | .ok es => .ok (es.foldl applyCommandLine s)

end ArgsManager

/-- The wrapper `GetArg(strArg, nDefault)` of `util.h`, lines 331-334: the
`int64_t` overload of the global store `gArgs`, here passed in. -/
def GetArg_int64 (gArgs : ArgsManager) (strArg : String) (nDefault : Int) : Int :=
  gArgs.GetArg_int64 strArg nDefault

theorem or_two_pow_and_self (m i : Nat) : (m ||| 2 ^ i) &&& 2 ^ i = 2 ^ i := by
  rw [Nat.and_two_pow, Nat.testBit_or, Nat.testBit_two_pow_self]
  simp

theorem or_two_pow_and_other (m i j : Nat) (hij : i ≠ j) :
    (m ||| 2 ^ i) &&& 2 ^ j = m &&& 2 ^ j := by
  rw [Nat.and_two_pow, Nat.and_two_pow, Nat.testBit_or, Nat.testBit_two_pow]
  simp [hij]

theorem mem_LogFlags_all (f : LogFlags) : f ∈ LogFlags.all := by
  cases f <;> decide

theorem toUInt32_eq_two_pow (f : LogFlags) (hf : f.isSentinel = false) :
    ∃ k, k < 32 ∧ f.toUInt32 = 2 ^ k := by
  have h : ∀ g ∈ LogFlags.all, g.isSentinel = false →
      ∃ k ∈ List.range 32, g.toUInt32 = 2 ^ k := by decide
  obtain ⟨k, hk, hv⟩ := h f (mem_LogFlags_all f) hf
  exact ⟨k, List.mem_range.mp hk, hv⟩

theorem toUInt32_injective (f g : LogFlags) (h : f.toUInt32 = g.toUInt32) : f = g := by
  revert h
  cases f <;> cases g <;> decide


theorem or_all_bits (m : Nat) (hm : m < 2 ^ 32) : m ||| (2 ^ 32 - 1) = 2 ^ 32 - 1 := by
  apply Nat.eq_of_testBit_eq
  intro i
  rw [Nat.testBit_or, Nat.testBit_two_pow_sub_one]
  by_cases hi : i < 32
  · simp [hi]
  · have hlt : m < 2 ^ i :=
      lt_of_lt_of_le hm (Nat.pow_le_pow_right (by decide) (Nat.le_of_not_lt hi))
    simp [hi, Nat.testBit_lt_two_pow hlt]

theorem all_bits_and (c : Nat) (hc : c < 2 ^ 32) : (2 ^ 32 - 1) &&& c = c := by
  rw [Nat.land_comm, Nat.and_pow_two_sub_one_eq_mod, Nat.mod_eq_of_lt hc]

/-! ## Category filter -/

/-- C1: for every mask value `m` held in `logCategories` and every category
argument `c`, `LogAcceptCategory(c)` returns true exactly when the bitwise AND
of `m` and `c` is nonzero, and the state it leaves (the mask included) is the
state it was called in. -/
theorem LogAcceptCategory_iff_and_ne_zero (m c : Nat) (calls : List LogCall) :
    ((LogAcceptCategory c ⟨m, calls⟩).1 = true ↔ m &&& c ≠ 0) ∧
    (LogAcceptCategory c ⟨m, calls⟩).2 = ⟨m, calls⟩ := by
  simp [LogAcceptCategory]

/-- C2: every enumerator of `LogFlags` other than `NONE` and `ALL` has exactly
one of its 32 bits set (its value is `2 ^ k` for some `k < 32`); two different
such enumerators have different values and share no bit; `NONE` is the zero
mask, `ALL` is the mask with all 32 bits set, and the value of every enumerator
is contained in `ALL`. -/
theorem LogFlags_one_bit_each :
    (∀ f : LogFlags, f.isSentinel = false →
      popcount32 f.toUInt32 = 1 ∧ ∃ k, k < 32 ∧ f.toUInt32 = 2 ^ k) ∧
    (∀ f g : LogFlags, f.isSentinel = false → g.isSentinel = false → f ≠ g →
      f.toUInt32 ≠ g.toUInt32 ∧ f.toUInt32 &&& g.toUInt32 = 0) ∧
    LogFlags.NONE.toUInt32 = 0 ∧
    LogFlags.ALL.toUInt32 = 2 ^ 32 - 1 ∧
    popcount32 LogFlags.ALL.toUInt32 = 32 ∧
    (∀ f : LogFlags, f.toUInt32 &&& LogFlags.ALL.toUInt32 = f.toUInt32) := by
  refine ⟨?_, ?_, by decide, by decide, by decide, ?_⟩
  · intro f hf
    refine ⟨?_, toUInt32_eq_two_pow f hf⟩
    have h : ∀ g ∈ LogFlags.all, g.isSentinel = false → popcount32 g.toUInt32 = 1 := by
      decide
    exact h f (mem_LogFlags_all f) hf
  · intro f g hf hg hfg
    have hne : f.toUInt32 ≠ g.toUInt32 := fun h => hfg (toUInt32_injective f g h)
    refine ⟨hne, ?_⟩
    obtain ⟨i, -, hi⟩ := toUInt32_eq_two_pow f hf
    obtain ⟨j, -, hj⟩ := toUInt32_eq_two_pow g hg
    have hij : i ≠ j := fun h => hne (by rw [hi, hj, h])
    rw [hi, hj, Nat.and_two_pow, Nat.testBit_two_pow]
    simp [hij]
  · intro f
    cases f <;> decide

/-- Witness of C2 at `NET` and `TOR`. -/
theorem LogFlags_one_bit_each_witness :
    (popcount32 LogFlags.NET.toUInt32 = 1 ∧ ∃ k, k < 32 ∧ LogFlags.NET.toUInt32 = 2 ^ k) ∧
    (LogFlags.NET.toUInt32 ≠ LogFlags.TOR.toUInt32 ∧
      LogFlags.NET.toUInt32 &&& LogFlags.TOR.toUInt32 = 0) :=
  ⟨LogFlags_one_bit_each.1 .NET rfl,
   LogFlags_one_bit_each.2.1 .NET .TOR rfl rfl (by decide)⟩

/-- C3: after merging `NET` into the zero mask, `LogAcceptCategory(NET)` is true
and `LogAcceptCategory(DYNODE)` is false; and for every single-bit category `c`,
every single-bit category `d` other than `c` and every mask, merging `c` makes
`LogAcceptCategory(c)` true and leaves the answer of `LogAcceptCategory(d)` as
it was before the merge. -/
theorem merge_category_accepts_only_it :
    (∀ calls : List LogCall,
      (LogAcceptCategory LogFlags.NET.toUInt32
        (MergeIntoMask LogFlags.NET.toUInt32 ⟨0, calls⟩)).1 = true ∧
      (LogAcceptCategory LogFlags.DYNODE.toUInt32
        (MergeIntoMask LogFlags.NET.toUInt32 ⟨0, calls⟩)).1 = false) ∧
    (∀ (c d : LogFlags) (st : LogState),
      c.isSentinel = false → d.isSentinel = false → d ≠ c →
      (LogAcceptCategory c.toUInt32 (MergeIntoMask c.toUInt32 st)).1 = true ∧
      (LogAcceptCategory d.toUInt32 (MergeIntoMask c.toUInt32 st)).1 =
        (LogAcceptCategory d.toUInt32 st).1) := by
  constructor
  · intro calls
    constructor <;> simp [LogAcceptCategory, MergeIntoMask, LogFlags.toUInt32]
  · intro c d st hc hd hdc
    obtain ⟨i, -, hi⟩ := toUInt32_eq_two_pow c hc
    obtain ⟨j, -, hj⟩ := toUInt32_eq_two_pow d hd
    have hij : i ≠ j := by
      intro h
      apply hdc
      apply toUInt32_injective
      rw [hi, hj, h]
    simp only [LogAcceptCategory, MergeIntoMask, hi, hj]
    rw [or_two_pow_and_self, or_two_pow_and_other _ _ _ hij]
    simp

/-- Witness of C3: merging `TOR` into the mask `{NET, DYNODE}`. -/
theorem merge_category_accepts_only_it_witness :
    (LogAcceptCategory LogFlags.TOR.toUInt32
      (MergeIntoMask LogFlags.TOR.toUInt32 ⟨16777217, []⟩)).1 = true ∧
    (LogAcceptCategory LogFlags.HTTP.toUInt32
      (MergeIntoMask LogFlags.TOR.toUInt32 ⟨16777217, []⟩)).1 =
      (LogAcceptCategory LogFlags.HTTP.toUInt32 ⟨16777217, []⟩).1 :=
  merge_category_accepts_only_it.2 .TOR .HTTP ⟨16777217, []⟩ rfl rfl (by decide)


/-- C4: after merging exactly `NET` and `TOR` into the zero mask (in either
order), the active-category view has one entry per category of the table that
owns a bit, in table order, whatever the names of the table are; the entries of
`NET` and `TOR` are active and the entry of every other category is not. -/
theorem ListActiveLogCategories_NET_TOR (names : LogFlags → String) (calls : List LogCall) :
    ListActiveLogCategories names
        (MergeIntoMask LogFlags.TOR.toUInt32 (MergeIntoMask LogFlags.NET.toUInt32 ⟨0, calls⟩)) =
      (LogFlags.all.filter (fun f => !f.isSentinel)).map (fun f =>
        ⟨names f, decide (f = LogFlags.NET ∨ f = LogFlags.TOR)⟩) ∧
    ListActiveLogCategories names
        (MergeIntoMask LogFlags.NET.toUInt32 (MergeIntoMask LogFlags.TOR.toUInt32 ⟨0, calls⟩)) =
      (LogFlags.all.filter (fun f => !f.isSentinel)).map (fun f =>
        ⟨names f, decide (f = LogFlags.NET ∨ f = LogFlags.TOR)⟩) := by
  constructor <;>
  · simp [ListActiveLogCategories, LogCategories, LogAcceptCategory, MergeIntoMask,
      LogFlags.all, LogFlags.toUInt32, LogFlags.isSentinel]
    decide

/-- C5, as the claim states it, fails: with the mask `{NET}`, applying the flag
`NONE` by the merge (OR) or by the clear (AND-NOT) leaves the mask as it is, and
`LogAcceptCategory(NET)` is still true. -/
theorem apply_NONE_keeps_mask :
    (MergeIntoMask LogFlags.NONE.toUInt32 ⟨1, []⟩).logCategories = 1 ∧
    (LogAcceptCategory LogFlags.NET.toUInt32
      (MergeIntoMask LogFlags.NONE.toUInt32 ⟨1, []⟩)).1 = true ∧
    (ClearFromMask LogFlags.NONE.toUInt32 ⟨1, []⟩).logCategories = 1 ∧
    (LogAcceptCategory LogFlags.NET.toUInt32
      (ClearFromMask LogFlags.NONE.toUInt32 ⟨1, []⟩)).1 = true := by
  decide

/-- C5, amended: for every prior state, merging the flag `NONE` leaves the state
as it is, so afterwards `LogAcceptCategory` is false for every category if and
only if the prior mask was zero; and for every prior 32-bit mask, merging the
flag `ALL` sets every bit, so afterwards `LogAcceptCategory` is true for every
nonzero 32-bit category, in particular for every enumerator other than `NONE`,
and clearing the flag `NONE` leaves the state as it is too. -/
theorem merge_NONE_and_merge_ALL (st : LogState) :
    MergeIntoMask LogFlags.NONE.toUInt32 st = st ∧
    ((∀ c : Nat, (LogAcceptCategory c (MergeIntoMask LogFlags.NONE.toUInt32 st)).1 = false) ↔
      st.logCategories = 0) ∧
    (st.logCategories < UINT32_RANGE →
      (MergeIntoMask LogFlags.ALL.toUInt32 st).logCategories = UINT32_RANGE - 1 ∧
      (∀ c : Nat, c < UINT32_RANGE → c ≠ 0 →
        (LogAcceptCategory c (MergeIntoMask LogFlags.ALL.toUInt32 st)).1 = true) ∧
      (∀ f : LogFlags, f ≠ LogFlags.NONE →
        (LogAcceptCategory f.toUInt32 (MergeIntoMask LogFlags.ALL.toUInt32 st)).1 = true) ∧
      ClearFromMask LogFlags.NONE.toUInt32 st = st) := by
  have hALL : LogFlags.ALL.toUInt32 = 2 ^ 32 - 1 := by decide
  have hR : UINT32_RANGE = 2 ^ 32 := by decide
  have hNONE : MergeIntoMask LogFlags.NONE.toUInt32 st = st := by
    simp [MergeIntoMask, LogFlags.toUInt32]
  refine ⟨hNONE, ?_, ?_⟩
  · rw [hNONE]
    constructor
    · intro h
      have hself := h st.logCategories
      simpa [LogAcceptCategory] using hself
    · intro h0 c
      simp [LogAcceptCategory, h0]
  · intro hm
    rw [hR] at hm
    have hmask : (MergeIntoMask LogFlags.ALL.toUInt32 st).logCategories = 2 ^ 32 - 1 := by
      simp only [MergeIntoMask, hALL]
      exact or_all_bits _ hm
    have hacc : ∀ c : Nat, c < 2 ^ 32 → c ≠ 0 →
        (LogAcceptCategory c (MergeIntoMask LogFlags.ALL.toUInt32 st)).1 = true := by
      intro c hc hc0
      simp only [LogAcceptCategory, hmask, all_bits_and c hc]
      simpa using hc0
    refine ⟨by rw [hmask, hR], fun c hc => hacc c (by rw [← hR]; exact hc), ?_, ?_⟩
    · intro f hf
      apply hacc
      · cases f <;> decide
      · revert hf
        cases f <;> decide
    · have hc : complement32 LogFlags.NONE.toUInt32 = 2 ^ 32 - 1 := by decide
      have hland : st.logCategories &&& (2 ^ 32 - 1) = st.logCategories := by
        rw [Nat.and_pow_two_sub_one_eq_mod, Nat.mod_eq_of_lt hm]
      simp only [ClearFromMask, hc, hland]

/-- Witness of C5 (amended): the zero mask, and the mask `{NET}` with `VERIFY`. -/
theorem merge_NONE_and_merge_ALL_witness :
    (∀ c : Nat, (LogAcceptCategory c (MergeIntoMask LogFlags.NONE.toUInt32 ⟨0, []⟩)).1 = false) ∧
    ((MergeIntoMask LogFlags.ALL.toUInt32 ⟨1, []⟩).logCategories = UINT32_RANGE - 1 ∧
      (LogAcceptCategory LogFlags.VERIFY.toUInt32
        (MergeIntoMask LogFlags.ALL.toUInt32 ⟨1, []⟩)).1 = true) :=
  ⟨(merge_NONE_and_merge_ALL ⟨0, []⟩).2.1.mpr rfl,
   ((merge_NONE_and_merge_ALL ⟨1, []⟩).2.2 (by decide)).1,
   ((merge_NONE_and_merge_ALL ⟨1, []⟩).2.2 (by decide)).2.2.1 .VERIFY (by decide)⟩

/-! ## Feedback record -/

/-- C8: a default-constructed `CFeedback` is null; `SetNull()` makes any
`CFeedback` null; `IsNull()` holds exactly when `txHash` is null, `nHeight`,
`nRating`, `nFeedbackUserFrom` and `nFeedbackUserTo` are 0 and `vchFeedback` is
empty; and `CFeedback(from, to)` is null exactly when `from` and `to` are 0. -/
theorem CFeedback_null_state :
    (∀ uninit : CFeedback, (CFeedback.new uninit).IsNull = true) ∧
    (∀ f : CFeedback, f.SetNull.IsNull = true) ∧
    (∀ f : CFeedback, f.IsNull = true ↔
      (f.txHash.IsNull = true ∧ f.nHeight = 0 ∧ f.nRating = 0 ∧ f.nFeedbackUserFrom = 0 ∧
        f.nFeedbackUserTo = 0 ∧ f.vchFeedback = [])) ∧
    (∀ (uninit : CFeedback) (nFrom nTo : Nat),
      (CFeedback.newFromTo uninit nFrom nTo).IsNull = true ↔ (nFrom = 0 ∧ nTo = 0)) := by
  have hnull : ∀ f : CFeedback, f.SetNull.IsNull = true := by
    intro f
    simp [CFeedback.SetNull, CFeedback.IsNull, uint256.SetNull, uint256.IsNull]
  refine ⟨fun u => hnull u, hnull, ?_, ?_⟩
  · intro f
    simp [CFeedback.IsNull, List.isEmpty_iff, and_assoc]
  · intro u a b
    simp [CFeedback.newFromTo, CFeedback.SetNull, CFeedback.IsNull, uint256.SetNull,
      uint256.IsNull]

/-! ## Argument marker -/

/-- C9: the hyphen is a switch character with and without `WIN32`; without
`WIN32` a character is a switch character exactly when it is the hyphen, with
`WIN32` exactly when it is the hyphen or the slash. -/
theorem IsSwitchChar_spec :
    (∀ WIN32 : Bool, IsSwitchChar WIN32 '-' = true) ∧
    (∀ c : Char, IsSwitchChar false c = true ↔ c = '-') ∧
    (∀ c : Char, IsSwitchChar true c = true ↔ (c = '-' ∨ c = '/')) := by
  refine ⟨?_, ?_, ?_⟩
  · intro w
    cases w <;> simp [IsSwitchChar]
  · intro c
    simp [IsSwitchChar]
  · intro c
    simp [IsSwitchChar]


/-! ## Category-gated logging -/

/-- C10: for every formatter, mask, category, format string and arguments:
when `LogAcceptCategory(category)` is false, `LogPrint` leaves the state as it
is (no call to the formatter, none to `LogPrintStr`); when it is true, `LogPrint`
adds exactly the two calls `tfm::format(fmt, args)` and `LogPrintStr(msg)`, one
call to `LogPrintStr` in all, the mask is as before, and `msg` is the formatted
text or, when the formatter throws, an error message that ends with `fmt`. -/
theorem LogPrint_gated (tfmFormat : String → List String → Except String String)
    (category : Nat) (fmt : String) (args : List String) (st : LogState) :
    ((LogAcceptCategory category st).1 = false →
      LogPrint tfmFormat category fmt args st = st) ∧
    ((LogAcceptCategory category st).1 = true →
      ∃ msg : String,
        LogPrint tfmFormat category fmt args st =
          { st with calls := st.calls ++ [LogCall.format fmt args, LogCall.LogPrintStr msg] } ∧
        countLogPrintStr (LogPrint tfmFormat category fmt args st).calls =
          countLogPrintStr st.calls + 1 ∧
        (∀ text, tfmFormat fmt args = .ok text → msg = text) ∧
        (∀ what, tfmFormat fmt args = .error what →
          msg = "Error \"" ++ what ++ "\" while formatting log message: " ++ fmt ∧
          ∃ pre : String, msg = pre ++ fmt)) := by
  constructor
  · intro h
    simp only [LogAcceptCategory] at h
    simp [LogPrint, LogAcceptCategory, h]
  · intro h
    simp only [LogAcceptCategory] at h
    have hrun : ∀ msg : String,
        (match tfmFormat fmt args with
          | .ok m => m
          | .error what =>
              "Error \"" ++ what ++ "\" while formatting log message: " ++
                FormatStringFromLogArgs fmt args) = msg →
        LogPrint tfmFormat category fmt args st =
          { st with calls := st.calls ++ [LogCall.format fmt args, LogCall.LogPrintStr msg] } := by
      intro msg hmsg
      simp [LogPrint, LogAcceptCategory, h, LogPrintf, LogPrintStr, hmsg]
    cases hf : tfmFormat fmt args with
    | ok text =>
      refine ⟨text, ?_, ?_, ?_, ?_⟩
      · exact hrun text (by simp [hf])
      · rw [hrun text (by simp [hf])]
        simp [countLogPrintStr]
      · intro t ht
        cases ht
        rfl
      · intro w hw
        cases hw
    | error what =>
      refine ⟨"Error \"" ++ what ++ "\" while formatting log message: " ++ fmt, ?_, ?_, ?_, ?_⟩
      · exact hrun ("Error \"" ++ what ++ "\" while formatting log message: " ++ fmt)
          (by simp [hf, FormatStringFromLogArgs])
      · rw [hrun ("Error \"" ++ what ++ "\" while formatting log message: " ++ fmt)
          (by simp [hf, FormatStringFromLogArgs])]
        simp [countLogPrintStr]
      · intro t ht
        cases ht
      · intro w hw
        cases hw
        exact ⟨rfl, _, rfl⟩


/-- Witness of C10: a formatter that throws, with the mask zero and with the
mask `{NET}`. -/
theorem LogPrint_gated_witness :
    LogPrint (fun _ _ => .error "bad") 1 "x" [] ⟨0, []⟩ = ⟨0, []⟩ ∧
    ∃ msg : String,
      LogPrint (fun _ _ => .error "bad") 1 "x" [] ⟨1, []⟩ =
        ⟨1, [LogCall.format "x" [], LogCall.LogPrintStr msg]⟩ ∧
      msg = "Error \"bad\" while formatting log message: x" := by
  refine ⟨(LogPrint_gated (fun _ _ => .error "bad") 1 "x" [] ⟨0, []⟩).1 rfl, ?_⟩
  obtain ⟨msg, h1, _, _, h4⟩ := (LogPrint_gated (fun _ _ => .error "bad") 1 "x" [] ⟨1, []⟩).2 rfl
  exact ⟨msg, h1, (h4 "bad" rfl).1⟩

/-! ## Argument store -/

/-- C7: the integer `GetArg` tells an unset name from an unparseable value. For
every store, name and default `d`, the member function and the global wrapper
alike return `d` when the name is not set; the parsed integer when the scalar
text of the name parses; and 0 when the name is set and its scalar text does
not parse. -/
theorem GetArg_int64_unset_or_unparseable (gArgs : ArgsManager) (strArg : String)
    (nDefault : Int) :
    GetArg_int64 gArgs strArg nDefault = gArgs.GetArg_int64 strArg nDefault ∧
    (gArgs.IsArgSet strArg = false → GetArg_int64 gArgs strArg nDefault = nDefault) ∧
    (∀ (text : String) (n : Int), gArgs.IsArgSet strArg = true →
      gArgs.mapArgs.lookup strArg = some text → ParseInt64 text = some n →
      GetArg_int64 gArgs strArg nDefault = n) ∧
    (∀ text : String, gArgs.IsArgSet strArg = true →
      gArgs.mapArgs.lookup strArg = some text → ParseInt64 text = none →
      GetArg_int64 gArgs strArg nDefault = 0) := by
  refine ⟨rfl, ?_, ?_, ?_⟩
  · intro h
    simp [GetArg_int64, ArgsManager.GetArg_int64, ArgsManager.scalar, h]
  · intro text n hset hl hp
    simp [GetArg_int64, ArgsManager.GetArg_int64, ArgsManager.scalar, hset, hl, hp]
  · intro text hset hl hp
    simp [GetArg_int64, ArgsManager.GetArg_int64, ArgsManager.scalar, hset, hl, hp]

/-- Witness of C7: the empty store gives the default 5; after the command lines
`-n=-42` and `-n=abc` the results are -42 and 0. -/
theorem GetArg_int64_unset_or_unparseable_witness :
    GetArg_int64 ArgsManager.empty "-n" 5 = 5 ∧
    (∃ s, ArgsManager.ParseParameters false ["-n=-42"] ArgsManager.empty = .ok s ∧
      GetArg_int64 s "-n" 5 = -42) ∧
    (∃ s, ArgsManager.ParseParameters false ["-n=abc"] ArgsManager.empty = .ok s ∧
      GetArg_int64 s "-n" 5 = 0) :=
  ⟨(GetArg_int64_unset_or_unparseable ArgsManager.empty "-n" 5).2.1 rfl,
   ⟨_, rfl,
    (GetArg_int64_unset_or_unparseable _ "-n" 5).2.2.1 "-42" (-42) rfl rfl (by decide)⟩,
   ⟨_, rfl, (GetArg_int64_unset_or_unparseable _ "-n" 5).2.2.2 "abc" rfl rfl (by decide)⟩⟩

end DynamicX
